import Mathlib

/-!
# Beam-column solver core: a verification development

Shallow embedding of the numerical core of the beam-column simulator
(`src/physics/beam_column.py`): the data model (`BeamSection`, `Material`,
`PointLoad`, `BeamColumnProblem`), the ODE derivative function, the
piecewise integrator `_solve_segmented`, the six boundary-condition
shooting solvers, the dispatch in `solve`, and the stress/strain
post-processor.

Modelling conventions:

* Machine floats are modelled by exact rationals `ℚ` (the one exception is
  the square root in the combined stress, which lives in `ℝ`).
* `scipy.integrate.odeint` numerically integrates the linear
  constant-coefficient system `_beam_column_odes`; it is modelled by the
  exact flow of that system (`flow`), sampled at the requested positions
  with the first position taken as the initial abscissa — exactly
  scipy's calling convention `odeint(f, y0, ts)` where `y0` is the state
  at `ts[0]` and the first output row is `y0` itself.
* The root-finders `brentq` / `fsolve` (together with their `except`
  fallbacks) are abstracted as oracle parameters: a function from the
  shooting-residual function to the chosen unknown(s).  Every theorem
  below either holds for an arbitrary oracle or quantifies over all
  possible outcomes of the root search.
-/

namespace BeamColumn

/-- `BeamSection`: cross-sectional properties of the (rectangular) beam. -/
structure BeamSection where
  width : ℚ
  height : ℚ
deriving DecidableEq

/-- `BeamSection.area`: cross-sectional area `width * height`. -/
def BeamSection.area (s : BeamSection) : ℚ := s.width * s.height

/-- `BeamSection.moment_of_inertia`: second moment `width * height**3 / 12`. -/
def BeamSection.moment_of_inertia (s : BeamSection) : ℚ := s.width * s.height ^ 3 / 12

/-- `BeamSection.max_distance_from_neutral`: extreme-fiber distance `height / 2`. -/
def BeamSection.max_distance_from_neutral (s : BeamSection) : ℚ := s.height / 2

/-- `Material`: material properties. -/
structure Material where
  E : ℚ
  density : ℚ
  poisson_ratio : ℚ := 3 / 10
deriving DecidableEq

/-- `PointLoad`: point load with position and direction along the beam. -/
structure PointLoad where
  magnitude : ℚ
  position : ℚ
  as_fraction : Bool := false
  direction : String := "downward"
deriving DecidableEq

/-- `BeamColumnProblem`: complete problem definition.  The source's field
`section` is spelled `sect` here because `section` is a Lean keyword.
`point_loads` is `Option`-valued exactly as the Python field defaults to
`None`; `post_init` normalizes it. -/
structure BeamColumnProblem where
  length : ℚ
  sect : BeamSection
  material : Material
  axial_load : ℚ
  lateral_load : ℚ
  point_load : ℚ := 0
  point_loads : Option (List PointLoad) := none
  orientation : String := "horizontal"
  include_self_weight : Bool := true
  g : ℚ := 981 / 100
  end_condition : String := "cantilever"
deriving DecidableEq

/-- `BeamColumnProblem.__post_init__`: when `point_loads` was not provided,
fold the legacy single `point_load` into the list (placed at `x = length`),
or initialize the empty list. -/
def post_init (p : BeamColumnProblem) : BeamColumnProblem :=
  match p.point_loads with
  | some _ => p
  | none =>
    if p.point_load ≠ 0 then
      { p with point_loads := some [{ magnitude := p.point_load, position := p.length,
                                      as_fraction := false, direction := "downward" }] }
    else
      { p with point_loads := some [] }

/-- `BeamColumnProblem.self_weight_load`: self-weight distributed load. -/
def self_weight_load (p : BeamColumnProblem) : ℚ :=
  if p.include_self_weight then p.sect.area * p.material.density * p.g else 0

/-- `BeamColumnProblem.total_lateral_load`: applied lateral load, plus
self-weight when the orientation is vertical and self-weight is enabled. -/
def total_lateral_load (p : BeamColumnProblem) : ℚ :=
  p.lateral_load +
    if p.orientation = "vertical" ∧ p.include_self_weight then self_weight_load p else 0

/-- Solver attribute `self.EI = problem.material.E * problem.section.moment_of_inertia`. -/
def EI (p : BeamColumnProblem) : ℚ := p.material.E * p.sect.moment_of_inertia

/-- Solver attribute `self.point_loads` (read off the normalized problem). -/
def loads (p : BeamColumnProblem) : List PointLoad := p.point_loads.getD []

/-- The state vector `y = [v, v', M, V]` of the ODE system. -/
structure BeamState where
  v : ℚ
  θ : ℚ
  M : ℚ
  V : ℚ
deriving DecidableEq

/-- `BeamColumnSolver._beam_column_odes`: the derivative of the state.
The position `x` and the axial load (available through `p`) are in scope
but unused, exactly as in the source. -/
def beam_column_odes (p : BeamColumnProblem) (y : BeamState) (x : ℚ) : BeamState :=
  { v := y.θ
    θ := y.M / EI p
    M := y.V
    V := -(total_lateral_load p) }

/-- The exact flow of the linear system `_beam_column_odes` over a step `t`:
`V' = V - q t`, `M' = M + V t - q t²/2`, and slope/deflection by further
integration.  This is the mathematical solution that `odeint` approximates
numerically; it models one integration step of the source. -/
def flow (ei q t : ℚ) (y : BeamState) : BeamState :=
  { v := y.v + y.θ * t + (y.M * t ^ 2 / 2 + y.V * t ^ 3 / 6 - q * t ^ 4 / 24) / ei
    θ := y.θ + (y.M * t + y.V * t ^ 2 / 2 - q * t ^ 3 / 6) / ei
    M := y.M + y.V * t - q * t ^ 2 / 2
    V := y.V - q * t }

/-- Model of `odeint(self._beam_column_odes, y0, xs)`: `y0` is the state at
`xs[0]`, one output row per sample position. -/
def odeint (ei q : ℚ) (y0 : BeamState) (xs : List ℚ) : List BeamState :=
  match xs with
  | [] => []
  | x0 :: _ => xs.map fun t => flow ei q (t - x0) y0

theorem flow_zero (ei q : ℚ) (y : BeamState) : flow ei q 0 y = y := by
  simp [flow]

/-- `flow` is a one-parameter group: flowing `s` then `t` is flowing
`s + t`.  Together with `flow_first_order` this characterizes `flow` as the
exact solution of the autonomous system `_beam_column_odes`. -/
theorem flow_add (ei q s t : ℚ) (y : BeamState) :
    flow ei q (s + t) y = flow ei q t (flow ei q s y) := by
  simp only [flow]
  refine BeamState.mk.injEq .. ▸ ⟨?_, ?_, ?_, ?_⟩ <;> ring

/-- First-order behaviour of `flow`: its deviation from the state is the
derivative given by `_beam_column_odes` times the step, up to an explicit
remainder of order `t²`.  With `flow_add` this pins `flow` down as the
solution of `y' = _beam_column_odes(y)` with `ei = E·I` and
`q = q_total`. -/
theorem flow_first_order (p : BeamColumnProblem) (y : BeamState) (x t : ℚ) :
    ∃ r : BeamState,
      flow (EI p) (total_lateral_load p) t y =
        { v := y.v + (beam_column_odes p y x).v * t + r.v * t ^ 2,
          θ := y.θ + (beam_column_odes p y x).θ * t + r.θ * t ^ 2,
          M := y.M + (beam_column_odes p y x).M * t + r.M * t ^ 2,
          V := y.V + (beam_column_odes p y x).V * t + r.V * t ^ 2 } := by
  refine ⟨{ v := (y.M / 2 + y.V * t / 6 - total_lateral_load p * t ^ 2 / 24) / EI p,
            θ := (y.V / 2 - total_lateral_load p * t / 6) / EI p,
            M := -(total_lateral_load p) / 2, V := 0 }, ?_⟩
  simp only [flow, beam_column_odes]
  refine BeamState.mk.injEq .. ▸ ⟨?_, ?_, ?_, ?_⟩ <;> ring

theorem odeint_length (ei q : ℚ) (y0 : BeamState) (xs : List ℚ) :
    (odeint ei q y0 xs).length = xs.length := by
  cases xs <;> simp [odeint]

/-- The tolerance `1e-9` used when matching a point load to a segment boundary. -/
def tol : ℚ := 1 / 1000000000

/-- Direction sign multiplier: `1.0 if direction == "downward" else -1.0`. -/
def direction_sign (d : String) : ℚ := if d = "downward" then 1 else -1

/-- Resolve a point-load position to absolute coordinates:
`pl.position if not pl.as_fraction else pl.position * L`. -/
def resolve_position (L : ℚ) (pl : PointLoad) : ℚ :=
  if pl.as_fraction then pl.position * L else pl.position

/-- The `(position, magnitude, direction_sign)` triples built at the top of
`_solve_segmented`, sorted by position. -/
def resolved_loads (L : ℚ) (ls : List PointLoad) : List (ℚ × ℚ × ℚ) :=
  (ls.map fun pl =>
    (resolve_position L pl, pl.magnitude, direction_sign pl.direction)).insertionSort
      (fun a b => a.1 ≤ b.1)

/-- `sorted(set(xs))`: sort, then drop duplicates. -/
def sorted_set (xs : List ℚ) : List ℚ := (xs.insertionSort (· ≤ ·)).dedup

/-- Segment boundaries of `_solve_segmented`: `0` and `L` together with the
resolved point-load positions strictly inside `(0, L)`, passed through
`sorted(set(...))`. -/
def segment_boundaries (L : ℚ) (resolved : List (ℚ × ℚ × ℚ)) : List ℚ :=
  sorted_set
    (0 :: (resolved.filterMap fun t => if 0 < t.1 ∧ t.1 < L then some t.1 else none) ++ [L])

/-- The net decrement `sum(direction_sign * magnitude)` applied to the carried
shear at boundary `b`: over all loads with `abs(pos - b) < 1e-9`. -/
def jump_at (resolved : List (ℚ × ℚ × ℚ)) (b : ℚ) : ℚ :=
  ((resolved.filter fun t => |t.1 - b| < tol).map fun t => t.2.2 * t.2.1).sum

/-- The per-segment loop of `_solve_segmented`: for each consecutive pair of
boundaries, sample the flow at the grid points falling inside the segment
(`(x >= x_start) & (x <= x_end)`), carry the last sampled state forward, and
— when the right boundary is not the final one — subtract the matching
point-load jumps from the carried shear.  A segment holding no grid sample is
skipped entirely (`continue`), so neither its state update nor the jump at
its right boundary happens, exactly as in the source. -/
def seg_loop (ei q : ℚ) (resolved : List (ℚ × ℚ × ℚ)) (x : List ℚ) :
    List ℚ → BeamState → List BeamState
  | b0 :: b1 :: rest, st =>
    let xseg := x.filter fun t => b0 ≤ t ∧ t ≤ b1
    if xseg.isEmpty then seg_loop ei q resolved x (b1 :: rest) st
    else
      let rows := odeint ei q st xseg
      let st1 := rows.getLastD st
      let st2 := if rest.isEmpty then st1 else { st1 with V := st1.V - jump_at resolved b1 }
      rows ++ seg_loop ei q resolved x (b1 :: rest) st2
  | _, _ => []

/-- The concatenation of every segment's sampled rows (`solution_list`). -/
def segment_rows (ei q L : ℚ) (ls : List PointLoad) (y0 : BeamState) (x : List ℚ) :
    List BeamState :=
  seg_loop ei q (resolved_loads L ls) x (segment_boundaries L (resolved_loads L ls)) y0

/-- `np.vstack(solution_list) if solution_list else np.array([y0])`. -/
def segment_full (ei q L : ℚ) (ls : List PointLoad) (y0 : BeamState) (x : List ℚ) :
    List BeamState :=
  if (segment_rows ei q L ls y0 x).isEmpty then [y0] else segment_rows ei q L ls y0 x

/-- `BeamColumnSolver._solve_segmented`: integrate segment by segment; when
the collected rows do not match the requested grid length, fall back to one
whole-domain integration that ignores the shear discontinuities. -/
def solve_segmented (ei q L : ℚ) (ls : List PointLoad) (y0 : BeamState) (x : List ℚ) :
    List BeamState :=
  if (segment_full ei q L ls y0 x).length ≠ x.length then odeint ei q y0 x
  else segment_full ei q L ls y0 x

/-- `np.linspace(0, self.L, num_points)`. -/
def linspace (L : ℚ) (n : ℕ) : List ℚ :=
  if n ≤ 1 then (List.range n).map fun _ => 0
  else (List.range n).map fun i => L * i / ((n : ℚ) - 1)

/-- `BeamColumnSolver._apply_point_loads`: the initial shear
`self.q * self.L` plus `sum(load_sign * pl.magnitude)` over all point
loads.  Its two parameters are accepted and ignored, exactly as in the
source. -/
def apply_point_loads (p : BeamColumnProblem) (V_initial : ℚ) (x : List ℚ) : ℚ :=
  total_lateral_load p * p.length +
    ((loads p).map fun pl => direction_sign pl.direction * pl.magnitude).sum

/-- The `(x, v, M, V)` quadruple every boundary solver returns. -/
structure Solution where
  x : List ℚ
  v : List ℚ
  M : List ℚ
  V : List ℚ
deriving DecidableEq

/-- `return x, solution[:, 0], solution[:, 2], solution[:, 3]`. -/
def package (x : List ℚ) (sol : List BeamState) : Solution :=
  { x := x, v := sol.map (·.v), M := sol.map (·.M), V := sol.map (·.V) }

/-- Initial state built by `_solve_cantilever`: `[0, slope, 0, V_initial]`. -/
def cantilever_y0 (p : BeamColumnProblem) (x : List ℚ) (slope : ℚ) : BeamState :=
  { v := 0, θ := slope, M := 0, V := apply_point_loads p 0 x }

/-- The cantilever shooting residual `solution[-1, 0]` (deflection at `x=L`). -/
def cantilever_residual (p : BeamColumnProblem) (x : List ℚ) (slope : ℚ) : ℚ :=
  ((solve_segmented (EI p) (total_lateral_load p) p.length (loads p)
      (cantilever_y0 p x slope) x).getLastD (cantilever_y0 p x slope)).v

/-- `BeamColumnSolver._solve_cantilever`; `rf1` abstracts `brentq` together
with its closed-form fallback. -/
def solve_cantilever (rf1 : (ℚ → ℚ) → ℚ) (p : BeamColumnProblem) (x : List ℚ) : Solution :=
  let slope := rf1 (cantilever_residual p x)
  package x (solve_segmented (EI p) (total_lateral_load p) p.length (loads p)
    (cantilever_y0 p x slope) x)

/-- Initial state built by `_solve_simply_supported`:
`[0, slope, 0, self.q * self.L]` (point loads are not consulted). -/
def simply_supported_y0 (p : BeamColumnProblem) (slope : ℚ) : BeamState :=
  { v := 0, θ := slope, M := 0, V := total_lateral_load p * p.length }

/-- The simply-supported shooting residual `solution[-1, 0]`; it integrates
with plain `odeint`, not the segmented integrator. -/
def simply_supported_residual (p : BeamColumnProblem) (x : List ℚ) (slope : ℚ) : ℚ :=
  ((odeint (EI p) (total_lateral_load p) (simply_supported_y0 p slope) x).getLastD
    (simply_supported_y0 p slope)).v

/-- `BeamColumnSolver._solve_simply_supported`. -/
def solve_simply_supported (rf1 : (ℚ → ℚ) → ℚ) (p : BeamColumnProblem) (x : List ℚ) :
    Solution :=
  let slope := rf1 (simply_supported_residual p x)
  package x (odeint (EI p) (total_lateral_load p) (simply_supported_y0 p slope) x)

/-- Initial state built by `_solve_fixed_fixed`:
`[0, slope, moment, self.q * self.L]` (point loads are not consulted). -/
def fixed_fixed_y0 (p : BeamColumnProblem) (params : ℚ × ℚ) : BeamState :=
  { v := 0, θ := params.1, M := params.2, V := total_lateral_load p * p.length }

/-- The fixed-fixed shooting residuals `(solution[-1,0], solution[-1,1])`;
plain `odeint`, not the segmented integrator. -/
def fixed_fixed_residuals (p : BeamColumnProblem) (x : List ℚ) (params : ℚ × ℚ) : ℚ × ℚ :=
  let sol := odeint (EI p) (total_lateral_load p) (fixed_fixed_y0 p params) x
  (((sol.getLastD (fixed_fixed_y0 p params))).v, ((sol.getLastD (fixed_fixed_y0 p params))).θ)

/-- `BeamColumnSolver._solve_fixed_fixed`; `rf2` abstracts `fsolve` together
with its fallback. -/
def solve_fixed_fixed (rf2 : (ℚ × ℚ → ℚ × ℚ) → ℚ × ℚ) (p : BeamColumnProblem) (x : List ℚ) :
    Solution :=
  let params := rf2 (fixed_fixed_residuals p x)
  package x (odeint (EI p) (total_lateral_load p) (fixed_fixed_y0 p params) x)

/-- Initial state built by `_solve_hinged_free`: `[0, 0, moment, V_initial]`. -/
def hinged_free_y0 (p : BeamColumnProblem) (x : List ℚ) (moment : ℚ) : BeamState :=
  { v := 0, θ := 0, M := moment, V := apply_point_loads p 0 x }

/-- The hinged-free shooting residual `solution[0, 0]` (deflection at the
first grid point). -/
def hinged_free_residual (p : BeamColumnProblem) (x : List ℚ) (moment : ℚ) : ℚ :=
  ((solve_segmented (EI p) (total_lateral_load p) p.length (loads p)
      (hinged_free_y0 p x moment) x).headD (hinged_free_y0 p x moment)).v

/-- `BeamColumnSolver._solve_hinged_free`. -/
def solve_hinged_free (rf1 : (ℚ → ℚ) → ℚ) (p : BeamColumnProblem) (x : List ℚ) : Solution :=
  let moment := rf1 (hinged_free_residual p x)
  package x (solve_segmented (EI p) (total_lateral_load p) p.length (loads p)
    (hinged_free_y0 p x moment) x)

/-- Initial state built by `_solve_fixed_hinged`: `[0, slope, 0, V_initial]`. -/
def fixed_hinged_y0 (p : BeamColumnProblem) (x : List ℚ) (slope : ℚ) : BeamState :=
  { v := 0, θ := slope, M := 0, V := apply_point_loads p 0 x }

/-- The fixed-hinged shooting residual `solution[-1, 2]` (moment at `x=L`). -/
def fixed_hinged_residual (p : BeamColumnProblem) (x : List ℚ) (slope : ℚ) : ℚ :=
  ((solve_segmented (EI p) (total_lateral_load p) p.length (loads p)
      (fixed_hinged_y0 p x slope) x).getLastD (fixed_hinged_y0 p x slope)).M

/-- `BeamColumnSolver._solve_fixed_hinged`. -/
def solve_fixed_hinged (rf1 : (ℚ → ℚ) → ℚ) (p : BeamColumnProblem) (x : List ℚ) : Solution :=
  let slope := rf1 (fixed_hinged_residual p x)
  package x (solve_segmented (EI p) (total_lateral_load p) p.length (loads p)
    (fixed_hinged_y0 p x slope) x)

/-- Initial state built by `_solve_hinged_fixed`:
`[0, slope, moment, V_initial]`. -/
def hinged_fixed_y0 (p : BeamColumnProblem) (x : List ℚ) (params : ℚ × ℚ) : BeamState :=
  { v := 0, θ := params.1, M := params.2, V := apply_point_loads p 0 x }

/-- The hinged-fixed shooting residuals `(solution[0,2], solution[-1,0])`:
the moment at the first grid point and the deflection at the last. -/
def hinged_fixed_residuals (p : BeamColumnProblem) (x : List ℚ) (params : ℚ × ℚ) : ℚ × ℚ :=
  let sol := solve_segmented (EI p) (total_lateral_load p) p.length (loads p)
    (hinged_fixed_y0 p x params) x
  ((sol.headD (hinged_fixed_y0 p x params)).M, (sol.getLastD (hinged_fixed_y0 p x params)).v)

/-- `BeamColumnSolver._solve_hinged_fixed`. -/
def solve_hinged_fixed (rf2 : (ℚ × ℚ → ℚ × ℚ) → ℚ × ℚ) (p : BeamColumnProblem) (x : List ℚ) :
    Solution :=
  let params := rf2 (hinged_fixed_residuals p x)
  package x (solve_segmented (EI p) (total_lateral_load p) p.length (loads p)
    (hinged_fixed_y0 p x params) x)

/-- `BeamColumnSolver.solve`: build the grid and dispatch on the
end-condition label; an unrecognized label raises
`ValueError(f"Unknown end condition: {end_condition}")`, modelled as
`Except.error`. -/
def solve (rf1 : (ℚ → ℚ) → ℚ) (rf2 : (ℚ × ℚ → ℚ × ℚ) → ℚ × ℚ) (p : BeamColumnProblem)
    (num_points : ℕ) : Except String Solution :=
  let x := linspace p.length num_points
  if p.end_condition = "cantilever" then .ok (solve_cantilever rf1 p x)
  else if p.end_condition = "simply_supported" then .ok (solve_simply_supported rf1 p x)
  else if p.end_condition = "fixed_fixed" then .ok (solve_fixed_fixed rf2 p x)
  else if p.end_condition = "hinged_free" then .ok (solve_hinged_free rf1 p x)
  else if p.end_condition = "fixed_hinged" then .ok (solve_fixed_hinged rf1 p x)
  else if p.end_condition = "hinged_fixed" then .ok (solve_hinged_fixed rf2 p x)
  else .error ("Unknown end condition: " ++ p.end_condition)

/-- `BeamColumnSolver.calculate_stresses`: bending stress `|M| * c / I`,
axial stress `P / A` broadcast over `x` (`np.ones_like(x) * P / A`), and
combined stress `sqrt(bending**2 + axial**2)`.  The square root is the
real square root, so the combined list lives in `ℝ`; this single def is
`noncomputable` only because of it. -/
noncomputable def calculate_stresses (p : BeamColumnProblem) (x M : List ℚ) :
    List ℚ × List ℚ × List ℝ :=
  let I := p.sect.moment_of_inertia
  let bending := M.map fun m => |m| * p.sect.max_distance_from_neutral / I
  let axial := x.map fun _ => p.axial_load / p.sect.area
  (bending, axial,
    List.zipWith (fun b a => Real.sqrt ((b : ℝ) ^ 2 + (a : ℝ) ^ 2)) bending axial)

/-- `BeamColumnSolver.calculate_strains`: each stress divided by Young's
modulus.  The Poisson ratio is read into a local (`nu`) and never used,
exactly as in the source. -/
def calculate_strains (p : BeamColumnProblem) (bending_stress axial_stress : List ℚ) :
    List ℚ × List ℚ :=
  let E := p.material.E
  let _nu := p.material.poisson_ratio
  (bending_stress.map (· / E), axial_stress.map (· / E))

/-! ## Theorems about the claims -/

/-- **C1.** For every state `y = [v, θ, M, V]` and every position `x`, the ODE
derivative function returns exactly `[θ, M/(E·I), V, −q_total]`; in
particular the result depends neither on the axial load `P` nor on `x`. -/
theorem C1_ode_derivative (p : BeamColumnProblem) (y : BeamState) (x : ℚ) :
    beam_column_odes p y x =
      { v := y.θ, θ := y.M / (p.material.E * p.sect.moment_of_inertia),
        M := y.V, V := -(total_lateral_load p) } ∧
    ∀ P' x' : ℚ, beam_column_odes { p with axial_load := P' } y x' = beam_column_odes p y x :=
  ⟨rfl, fun _ _ => rfl⟩

/-- **C4.** The initial shear `V(0)` used by the cantilever, hinged_free,
fixed_hinged and hinged_fixed solvers equals `q_total·L` plus the sum of
`direction_sign · magnitude` over all point loads, independent of the
shooting unknowns (`slope`, `moment`, `params`), of the sample grid
(`x` versus `x'`), and of the point-load positions (positions do not occur
in the formula). -/
theorem C4_initial_shear (p : BeamColumnProblem) (V0 : ℚ) (x x' : List ℚ)
    (slope moment : ℚ) (params : ℚ × ℚ) :
    (cantilever_y0 p x slope).V =
      total_lateral_load p * p.length +
        ((loads p).map fun pl => direction_sign pl.direction * pl.magnitude).sum ∧
    (hinged_free_y0 p x moment).V = (cantilever_y0 p x' slope).V ∧
    (fixed_hinged_y0 p x slope).V = (cantilever_y0 p x' slope).V ∧
    (hinged_fixed_y0 p x params).V = (cantilever_y0 p x' slope).V ∧
    apply_point_loads p V0 x = apply_point_loads p 0 x' ∧
    direction_sign "downward" = 1 ∧ direction_sign "upward" = -1 := by
  refine ⟨rfl, rfl, rfl, rfl, rfl, ?_, ?_⟩ <;> simp [direction_sign]

/-- **C7.** Construction-time normalization of the legacy point load: with no
explicit list, a nonzero legacy `point_load` becomes a single downward
point load of that magnitude at absolute position `length`; a zero legacy
load yields the empty list; a problem built with an explicit list is left
untouched (the normalization happens only at construction). -/
theorem C7_legacy_normalization (p : BeamColumnProblem) :
    (p.point_loads = none → p.point_load ≠ 0 →
      (post_init p).point_loads =
        some [{ magnitude := p.point_load, position := p.length, as_fraction := false,
                direction := "downward" }]) ∧
    (p.point_loads = none → p.point_load = 0 → (post_init p).point_loads = some []) ∧
    (∀ l, p.point_loads = some l → post_init p = p) := by
  refine ⟨fun hnone hnz => ?_, fun hnone hz => ?_, fun l hsome => ?_⟩
  · simp [post_init, hnone, hnz]
  · simp [post_init, hnone, hz]
  · simp [post_init, hsome]

/-- Witness for C7 at a concrete problem: a legacy load of 5 on a beam of
length 2 lands as a downward point load of magnitude 5 at position 2. -/
theorem C7_legacy_normalization_witness :
    (post_init
      { length := 2, sect := { width := 1, height := 1 },
        material := { E := 1, density := 1 }, axial_load := 0, lateral_load := 0,
        point_load := 5 }).point_loads =
      some [{ magnitude := 5, position := 2, as_fraction := false,
              direction := "downward" }] :=
  (C7_legacy_normalization _).1 rfl (by norm_num)

/-- **C8.** Dispatch: an end-condition label outside the six recognized ones
makes `solve` fail with the invalid-configuration error naming the label
(no `Solution` is produced, so no integration happens); each recognized
label dispatches to its solver and produces `.ok`. -/
theorem C8_dispatch (rf1 : (ℚ → ℚ) → ℚ) (rf2 : (ℚ × ℚ → ℚ × ℚ) → ℚ × ℚ)
    (p : BeamColumnProblem) (n : ℕ) :
    (p.end_condition ∉ (["cantilever", "simply_supported", "fixed_fixed", "hinged_free",
        "fixed_hinged", "hinged_fixed"] : List String) →
      solve rf1 rf2 p n = .error ("Unknown end condition: " ++ p.end_condition)) ∧
    (p.end_condition = "cantilever" →
      solve rf1 rf2 p n = .ok (solve_cantilever rf1 p (linspace p.length n))) ∧
    (p.end_condition = "simply_supported" →
      solve rf1 rf2 p n = .ok (solve_simply_supported rf1 p (linspace p.length n))) ∧
    (p.end_condition = "fixed_fixed" →
      solve rf1 rf2 p n = .ok (solve_fixed_fixed rf2 p (linspace p.length n))) ∧
    (p.end_condition = "hinged_free" →
      solve rf1 rf2 p n = .ok (solve_hinged_free rf1 p (linspace p.length n))) ∧
    (p.end_condition = "fixed_hinged" →
      solve rf1 rf2 p n = .ok (solve_fixed_hinged rf1 p (linspace p.length n))) ∧
    (p.end_condition = "hinged_fixed" →
      solve rf1 rf2 p n = .ok (solve_hinged_fixed rf2 p (linspace p.length n))) := by
  refine ⟨fun hbad => ?_, fun h => ?_, fun h => ?_, fun h => ?_, fun h => ?_, fun h => ?_,
    fun h => ?_⟩
  · simp only [List.mem_cons, List.not_mem_nil, or_false, not_or] at hbad
    obtain ⟨h1, h2, h3, h4, h5, h6⟩ := hbad
    simp [solve, h1, h2, h3, h4, h5, h6]
  all_goals simp [solve, h]

/-- Witness for C8: an unrecognized label `"free_free"` is rejected with the
error message naming it, and the label `"cantilever"` is accepted. -/
theorem C8_dispatch_witness :
    solve (fun _ => 0) (fun _ => (0, 0))
      { length := 1, sect := { width := 1, height := 1 },
        material := { E := 1, density := 1 }, axial_load := 0, lateral_load := 0,
        point_loads := some [], end_condition := "free_free" } 3 =
      .error "Unknown end condition: free_free" :=
  (C8_dispatch (fun _ => 0) (fun _ => (0, 0)) _ 3).1 (by simp)

/-- **C9.** The stress post-processor: bending stress is elementwise
`|M|·c/I` and (for a genuine section) nonnegative, axial stress is the
constant `P/A` at every position, combined stress is the elementwise
root-sum-square of the two, and the strains are the stresses divided by
`E`, with no dependence on the Poisson ratio. -/
theorem C9_stresses (p : BeamColumnProblem) (x M bs as : List ℚ)
    (hw : 0 < p.sect.width) (hh : 0 < p.sect.height) :
    (calculate_stresses p x M).1 =
      M.map (fun m => |m| * p.sect.max_distance_from_neutral / p.sect.moment_of_inertia) ∧
    (∀ b ∈ (calculate_stresses p x M).1, 0 ≤ b) ∧
    (calculate_stresses p x M).2.1 = x.map (fun _ => p.axial_load / p.sect.area) ∧
    (∀ a ∈ (calculate_stresses p x M).2.1, a = p.axial_load / p.sect.area) ∧
    (calculate_stresses p x M).2.2 =
      List.zipWith (fun b a => Real.sqrt ((b : ℝ) ^ 2 + (a : ℝ) ^ 2))
        (calculate_stresses p x M).1 (calculate_stresses p x M).2.1 ∧
    calculate_strains p bs as =
      (bs.map (· / p.material.E), as.map (· / p.material.E)) ∧
    (∀ nu' : ℚ,
      calculate_strains { p with material := { p.material with poisson_ratio := nu' } } bs as =
        calculate_strains p bs as) := by
  refine ⟨rfl, ?_, rfl, ?_, rfl, rfl, fun nu' => rfl⟩
  · intro b hb
    simp only [calculate_stresses, List.mem_map] at hb
    obtain ⟨m, _, rfl⟩ := hb
    have hc : 0 < p.sect.max_distance_from_neutral := by
      unfold BeamSection.max_distance_from_neutral
      positivity
    have hI : 0 < p.sect.moment_of_inertia := by
      unfold BeamSection.moment_of_inertia
      positivity
    exact div_nonneg (mul_nonneg (abs_nonneg m) hc.le) hI.le
  · intro a ha
    simp only [calculate_stresses, List.mem_map] at ha
    obtain ⟨t, _, rfl⟩ := ha
    rfl

/-- The first output row of `odeint` is the initial state itself. -/
theorem odeint_head (ei q : ℚ) (y0 : BeamState) (xs : List ℚ) (h : xs ≠ []) :
    (odeint ei q y0 xs).head? = some y0 := by
  cases xs with
  | nil => exact absurd rfl h
  | cons c cs => simp [odeint, sub_self, flow_zero]

/-- Unfolding `seg_loop` on a segment that holds no grid sample: the segment
is skipped (`continue`), the carried state untouched, the jump at its right
boundary never applied. -/
theorem seg_loop_cons_empty (ei q : ℚ) (resolved : List (ℚ × ℚ × ℚ)) (x : List ℚ)
    (b0 b1 : ℚ) (rest : List ℚ) (st : BeamState)
    (h : (x.filter fun t => b0 ≤ t ∧ t ≤ b1) = []) :
    seg_loop ei q resolved x (b0 :: b1 :: rest) st =
      seg_loop ei q resolved x (b1 :: rest) st := by
  rw [seg_loop, h]
  rfl

/-- Unfolding `seg_loop` on a sampled segment whose right boundary is
interior: emit the segment's rows and carry the last row with
`direction_sign · magnitude` subtracted from its shear for every point load
within `1e-9` of that boundary. -/
theorem seg_loop_cons_inner (ei q : ℚ) (resolved : List (ℚ × ℚ × ℚ)) (x : List ℚ)
    (b0 b1 b2 : ℚ) (rest : List ℚ) (st : BeamState)
    (h : (x.filter fun t => b0 ≤ t ∧ t ≤ b1) ≠ []) :
    seg_loop ei q resolved x (b0 :: b1 :: b2 :: rest) st =
      odeint ei q st (x.filter fun t => b0 ≤ t ∧ t ≤ b1) ++
        seg_loop ei q resolved x (b1 :: b2 :: rest)
          { (odeint ei q st (x.filter fun t => b0 ≤ t ∧ t ≤ b1)).getLastD st with
            V := ((odeint ei q st (x.filter fun t => b0 ≤ t ∧ t ≤ b1)).getLastD st).V -
              jump_at resolved b1 } := by
  rw [seg_loop]
  rw [if_neg (by simpa [List.isEmpty_iff] using h)]
  rfl

/-- Unfolding `seg_loop` on a sampled final segment: emit the rows, no jump. -/
theorem seg_loop_cons_final (ei q : ℚ) (resolved : List (ℚ × ℚ × ℚ)) (x : List ℚ)
    (b0 b1 : ℚ) (st : BeamState)
    (h : (x.filter fun t => b0 ≤ t ∧ t ≤ b1) ≠ []) :
    seg_loop ei q resolved x [b0, b1] st =
      odeint ei q st (x.filter fun t => b0 ≤ t ∧ t ≤ b1) := by
  rw [seg_loop]
  rw [if_neg (by simpa [List.isEmpty_iff] using h)]
  show _ ++ seg_loop ei q resolved x [b1] _ = _
  rw [seg_loop]
  · exact List.append_nil _
  · intro a b c hab
    simp at hab

/-- When the segment loop produces any rows at all, its first row is the
initial state: jumps are applied only after a segment has produced rows,
and empty segments are skipped without touching the carried state. -/
theorem seg_loop_head (ei q : ℚ) (resolved : List (ℚ × ℚ × ℚ)) (x : List ℚ) :
    ∀ (bounds : List ℚ) (st : BeamState), seg_loop ei q resolved x bounds st ≠ [] →
      (seg_loop ei q resolved x bounds st).head? = some st := by
  intro bounds
  induction bounds with
  | nil => intro st h; exact absurd rfl h
  | cons b0 rest ih =>
    intro st h
    cases rest with
    | nil => exact absurd rfl h
    | cons b1 rest' =>
      by_cases he : (x.filter fun t => b0 ≤ t ∧ t ≤ b1) = []
      · rw [seg_loop_cons_empty ei q resolved x b0 b1 rest' st he] at h ⊢
        exact ih st h
      · have hrows : (odeint ei q st (x.filter fun t => b0 ≤ t ∧ t ≤ b1)).head? = some st :=
          odeint_head _ _ _ _ he
        obtain ⟨r, rs, hr⟩ : ∃ r rs,
            odeint ei q st (x.filter fun t => b0 ≤ t ∧ t ≤ b1) = r :: rs := by
          cases hq : odeint ei q st (x.filter fun t => b0 ≤ t ∧ t ≤ b1) with
          | nil => rw [hq] at hrows; exact absurd hrows (by simp)
          | cons r rs => exact ⟨r, rs, rfl⟩
        cases rest' with
        | nil =>
          rw [seg_loop_cons_final ei q resolved x b0 b1 st he, hr]
          rw [hr] at hrows
          simpa using hrows
        | cons b2 rest'' =>
          rw [seg_loop_cons_inner ei q resolved x b0 b1 b2 rest'' st he, hr]
          rw [hr] at hrows
          simpa using hrows

/-- The first output row of `solve_segmented` on a nonempty grid is always
the initial state `y0`, on both the segmented and the fallback paths
(`odeint` also returns `y0` as its first row). -/
theorem solve_segmented_head (ei q L : ℚ) (ls : List PointLoad) (y0 : BeamState)
    (x : List ℚ) (hx : x ≠ []) :
    (solve_segmented ei q L ls y0 x).head? = some y0 := by
  unfold solve_segmented
  by_cases hf : (segment_full ei q L ls y0 x).length ≠ x.length
  · rw [if_pos hf]
    exact odeint_head _ _ _ _ hx
  · rw [if_neg hf]
    unfold segment_full
    by_cases hr : (segment_rows ei q L ls y0 x).isEmpty
    · rw [if_pos hr]
      rfl
    · rw [if_neg hr]
      exact seg_loop_head _ _ _ _ _ _
        (by simpa [segment_rows, List.isEmpty_iff] using hr)

/-- **C5 (counterexample).** The claim says the first hinged_fixed residual
component is structurally zero regardless of the guessed unknowns.  It is
not: at the concrete problem below with guess `(slope, moment) = (0, 1)`,
the first residual equals the guessed moment `1`. -/
theorem C5_counterexample :
    (hinged_fixed_residuals
      { length := 2, sect := { width := 1, height := 1 },
        material := { E := 12, density := 0 }, axial_load := 0, lateral_load := 0,
        point_loads := some [], end_condition := "hinged_fixed" }
      [0, 1, 2] (0, 1)).1 ≠ 0 := by
  simp only [hinged_fixed_residuals]
  rw [List.headD_eq_head?_getD, solve_segmented_head _ _ _ _ _ _ (by simp)]
  norm_num [hinged_fixed_y0]

/-- **C5 (amended).** For every problem, every nonempty grid and every guess:
the hinged_free shooting residual (`v` at the first grid point) is
structurally zero regardless of the guessed moment, because it reads a
state component fixed to `0` by its own initial conditions; the first
hinged_fixed residual component (`M` at the first grid point) is not fixed
— it equals the guessed initial moment itself, so that residual equation
merely forces the guess's moment component to zero and never involves the
integration. -/
theorem C5_degenerate_residuals (p : BeamColumnProblem) (x : List ℚ) (moment : ℚ)
    (params : ℚ × ℚ) (hx : x ≠ []) :
    hinged_free_residual p x moment = 0 ∧
    (hinged_fixed_residuals p x params).1 = params.2 := by
  constructor
  · simp only [hinged_free_residual]
    rw [List.headD_eq_head?_getD, solve_segmented_head _ _ _ _ _ _ hx]
    rfl
  · simp only [hinged_fixed_residuals]
    rw [List.headD_eq_head?_getD, solve_segmented_head _ _ _ _ _ _ hx]
    rfl

/-- Witness for the amended C5 at a concrete problem, grid and guesses. -/
theorem C5_degenerate_residuals_witness :
    hinged_free_residual
      { length := 2, sect := { width := 1, height := 1 },
        material := { E := 12, density := 0 }, axial_load := 0, lateral_load := 0,
        point_loads := some [], end_condition := "hinged_free" }
      [0, 1, 2] 7 = 0 :=
  (C5_degenerate_residuals _ [0, 1, 2] 7 (3, 4) (by simp)).1

/-- **C2 (counterexample).** A point load falling exactly on a requested grid
point is not re-matched to that grid point: the shared sample is collected
by both adjacent segments (4 rows for a 3-point grid), the counts fail to
reconcile, and the whole-domain fallback fires, which ignores the
discontinuity entirely — the output with a downward unit load exactly at
the on-grid interior position `1` is identical to the output with no point
loads at all, so no discontinuity is represented at the matched point. -/
theorem C2_counterexample :
    (segment_rows 1 0 2 [{ magnitude := 1, position := 1 }] ⟨0, 0, 0, 5⟩ [0, 1, 2]).length
      = 4 ∧
    solve_segmented 1 0 2 [{ magnitude := 1, position := 1 }] ⟨0, 0, 0, 5⟩ [0, 1, 2] =
      odeint 1 0 ⟨0, 0, 0, 5⟩ [0, 1, 2] ∧
    solve_segmented 1 0 2 [{ magnitude := 1, position := 1 }] ⟨0, 0, 0, 5⟩ [0, 1, 2] =
      solve_segmented 1 0 2 [] ⟨0, 0, 0, 5⟩ [0, 1, 2] := by
  refine ⟨?_, ?_, ?_⟩ <;>
    norm_num [solve_segmented, segment_full, segment_rows, seg_loop, segment_boundaries,
      sorted_set, resolved_loads, resolve_position, direction_sign, jump_at, tol, odeint, flow,
      List.insertionSort, List.orderedInsert, List.dedup, List.filter, List.filterMap, abs_lt]

/-- **C2 (amended).** The output of the piecewise integrator is sampled at
every position of the requested grid on both paths: when the segment row
count reconciles with the grid the segmented rows are returned as they
are, and exactly when it fails to reconcile the integrator falls back to a
single whole-domain integration (which ignores shear discontinuities) that
still yields one row per grid position. -/
theorem C2_sampling_and_fallback (ei q L : ℚ) (ls : List PointLoad) (y0 : BeamState)
    (x : List ℚ) :
    (solve_segmented ei q L ls y0 x).length = x.length ∧
    ((segment_full ei q L ls y0 x).length = x.length →
      solve_segmented ei q L ls y0 x = segment_full ei q L ls y0 x) ∧
    ((segment_full ei q L ls y0 x).length ≠ x.length →
      solve_segmented ei q L ls y0 x = odeint ei q y0 x) := by
  refine ⟨?_, fun h => ?_, fun h => ?_⟩
  · unfold solve_segmented
    by_cases h : (segment_full ei q L ls y0 x).length ≠ x.length
    · rw [if_pos h]
      exact odeint_length _ _ _ _
    · rw [if_neg h]
      exact not_ne_iff.mp h
  · simp [solve_segmented, h]
  · unfold solve_segmented
    rw [if_pos h]

/-- Witness for the amended C2: with no point loads on the grid `[0, 1, 2]`
the counts reconcile and the segmented rows are returned unchanged. -/
theorem C2_sampling_and_fallback_witness :
    solve_segmented 1 0 2 [] ⟨0, 0, 0, 5⟩ [0, 1, 2] =
      segment_full 1 0 2 [] ⟨0, 0, 0, 5⟩ [0, 1, 2] :=
  (C2_sampling_and_fallback 1 0 2 [] ⟨0, 0, 0, 5⟩ [0, 1, 2]).2.1
    (by norm_num [segment_full, segment_rows, seg_loop, segment_boundaries,
      sorted_set, resolved_loads, resolve_position, direction_sign, jump_at, tol, odeint, flow,
      List.insertionSort, List.orderedInsert, List.dedup, List.filter, List.filterMap, abs_lt])

/-- Membership in `sorted(set(xs))` is membership in `xs`. -/
theorem mem_sorted_set (xs : List ℚ) (b : ℚ) : b ∈ sorted_set xs ↔ b ∈ xs := by
  unfold sorted_set
  rw [List.mem_dedup, List.mem_insertionSort]

/-- `sorted(set(xs))` is strictly increasing. -/
theorem sorted_set_sorted (xs : List ℚ) : (sorted_set xs).Sorted (· < ·) := by
  have hs : (sorted_set xs).Sorted (· ≤ ·) :=
    (List.sorted_insertionSort (· ≤ ·) xs).sublist (List.dedup_sublist _)
  have hn : (sorted_set xs).Nodup := List.nodup_dedup _
  exact List.Pairwise.imp₂ (fun a b hab hne => lt_of_le_of_ne hab hne) hs hn

/-- **C3 (counterexample).** Loads of magnitude 1 at positions `1/2` and `1`
on a beam of length 2, sampled only at the grid `[0, 2]`: the boundaries
are `[0, 1/2, 1, 2]` and the per-boundary jumps at `1/2` and at `1` are
each `1`, but the segment `(1/2, 1)` holds no grid sample and is skipped
(`continue`), so the jump at boundary `1` is never subtracted: the shear
carried to the final sample is `5 - 1 = 4`, not `5 - 1 - 1 = 3` as the
claim's "at each interior boundary" rule requires. -/
theorem C3_counterexample :
    segment_boundaries 2 (resolved_loads 2
        [{ magnitude := 1, position := 1/2 }, { magnitude := 1, position := 1 }]) =
      [0, 1/2, 1, 2] ∧
    jump_at (resolved_loads 2
      [{ magnitude := 1, position := 1/2 }, { magnitude := 1, position := 1 }]) (1/2) = 1 ∧
    jump_at (resolved_loads 2
      [{ magnitude := 1, position := 1/2 }, { magnitude := 1, position := 1 }]) 1 = 1 ∧
    (solve_segmented 1 0 2
        [{ magnitude := 1, position := 1/2 }, { magnitude := 1, position := 1 }]
        ⟨0, 0, 0, 5⟩ [0, 2]).map (·.V) = [5, 4] ∧
    (4 : ℚ) ≠ 5 - 1 - 1 := by
  refine ⟨?_, ?_, ?_, ?_, by norm_num⟩ <;>
    norm_num [solve_segmented, segment_full, segment_rows, seg_loop, segment_boundaries,
      sorted_set, resolved_loads, resolve_position, direction_sign, jump_at, tol, odeint, flow,
      List.insertionSort, List.orderedInsert, List.dedup, List.filter, List.filterMap, abs_lt]

/-- **C3 (amended).** The segment boundaries are exactly `{0, L}` together
with the resolved point-load positions strictly inside `(0, L)`, sorted
strictly (hence deduplicated).  At each interior boundary whose segment
contributed at least one grid sample, the state carried into the next
segment is the last sampled row with `direction_sign · magnitude`
subtracted from its shear, summed over every point load whose resolved
position lies within `1e-9` of that boundary (wherever that load resolved,
including exactly `0` or `L`); a segment holding no grid sample is skipped
together with the jump at its right boundary. -/
theorem C3_boundaries_and_jumps (ei q L : ℚ) (resolved : List (ℚ × ℚ × ℚ)) (x : List ℚ) :
    (∀ b, b ∈ segment_boundaries L resolved ↔
      b = 0 ∨ b = L ∨ ∃ t ∈ resolved, t.1 = b ∧ 0 < b ∧ b < L) ∧
    (segment_boundaries L resolved).Sorted (· < ·) ∧
    (∀ b, jump_at resolved b =
      ((resolved.filter fun t => |t.1 - b| < tol).map fun t => t.2.2 * t.2.1).sum) ∧
    (∀ (st : BeamState) (b0 b1 b2 : ℚ) (rest : List ℚ),
      (x.filter fun t => b0 ≤ t ∧ t ≤ b1) ≠ [] →
      seg_loop ei q resolved x (b0 :: b1 :: b2 :: rest) st =
        odeint ei q st (x.filter fun t => b0 ≤ t ∧ t ≤ b1) ++
          seg_loop ei q resolved x (b1 :: b2 :: rest)
            { (odeint ei q st (x.filter fun t => b0 ≤ t ∧ t ≤ b1)).getLastD st with
              V := ((odeint ei q st (x.filter fun t => b0 ≤ t ∧ t ≤ b1)).getLastD st).V -
                jump_at resolved b1 }) ∧
    (∀ (st : BeamState) (b0 b1 : ℚ) (rest : List ℚ),
      (x.filter fun t => b0 ≤ t ∧ t ≤ b1) = [] →
      seg_loop ei q resolved x (b0 :: b1 :: rest) st =
        seg_loop ei q resolved x (b1 :: rest) st) := by
  refine ⟨fun b => ?_, sorted_set_sorted _, fun b => rfl,
    fun st b0 b1 b2 rest h => seg_loop_cons_inner ei q resolved x b0 b1 b2 rest st h,
    fun st b0 b1 rest h => seg_loop_cons_empty ei q resolved x b0 b1 rest st h⟩
  unfold segment_boundaries
  rw [mem_sorted_set]
  have hfm : b ∈ (resolved.filterMap fun t => if 0 < t.1 ∧ t.1 < L then some t.1 else none)
      ↔ ∃ t ∈ resolved, t.1 = b ∧ 0 < b ∧ b < L := by
    simp only [List.mem_filterMap]
    constructor
    · rintro ⟨t, ht, hif⟩
      by_cases hc : 0 < t.1 ∧ t.1 < L
      · rw [if_pos hc] at hif
        obtain rfl : t.1 = b := Option.some_injective _ hif
        exact ⟨t, ht, rfl, hc.1, hc.2⟩
      · rw [if_neg hc] at hif
        exact absurd hif (by simp)
    · rintro ⟨t, ht, rfl, h1, h2⟩
      exact ⟨t, ht, by rw [if_pos ⟨h1, h2⟩]⟩
  constructor
  · intro h
    rcases List.mem_cons.mp h with h0 | h2
    · exact Or.inl h0
    rcases List.mem_append.mp h2 with hm | hL
    · exact Or.inr (Or.inr (hfm.mp hm))
    · exact Or.inr (Or.inl (List.mem_singleton.mp hL))
  · intro h
    apply List.mem_cons.mpr
    rcases h with h0 | hL | he
    · exact Or.inl h0
    · exact Or.inr (List.mem_append.mpr (Or.inr (List.mem_singleton.mpr hL)))
    · exact Or.inr (List.mem_append.mpr (Or.inl (hfm.mpr he)))

/-- Witness for the amended C3, applying the skip rule at a segment of
`(1/2, 3/4)` that holds no sample of the grid `[0, 2]`. -/
theorem C3_boundaries_and_jumps_witness :
    seg_loop 1 0 [] [0, 2] [1/2, 3/4, 2] ⟨0, 0, 0, 5⟩ =
      seg_loop 1 0 [] [0, 2] [3/4, 2] ⟨0, 0, 0, 5⟩ :=
  (C3_boundaries_and_jumps 1 0 2 [] [0, 2]).2.2.2.2 ⟨0, 0, 0, 5⟩ (1/2) (3/4) [2]
    (by norm_num [List.filter])

theorem direction_sign_downward : direction_sign "downward" = 1 := by
  simp [direction_sign]

theorem direction_sign_upward : direction_sign "upward" = -1 := by
  simp [direction_sign]

/-- A cantilever problem with `EI = 1`, `L = 3`, `q_total = 1` and no point
loads, over which the superposition property is evaluated. -/
def superposition_base : BeamColumnProblem :=
  { length := 3, sect := { width := 1, height := 1 },
    material := { E := 12, density := 0 }, axial_load := 0, lateral_load := 1,
    point_loads := some [], include_self_weight := false,
    end_condition := "cantilever" }

/-- The same problem with a cancelling pair appended to the point-load list:
a downward and an upward point load, both of magnitude 1, at the same
interior position `3/2`. -/
def superposition_pair : BeamColumnProblem :=
  { superposition_base with
    point_loads := some [{ magnitude := 1, position := 3/2 },
                         { magnitude := 1, position := 3/2, direction := "upward" }] }

/-- Shear sequence of the base problem's final integration, for an arbitrary
shooting slope: the exact `V(x) = q·(L − x)` samples. -/
theorem superposition_base_V (s : ℚ) :
    (solve_segmented (EI superposition_base) (total_lateral_load superposition_base)
        superposition_base.length (loads superposition_base)
        (cantilever_y0 superposition_base [0, 1, 2, 3] s) [0, 1, 2, 3]).map (·.V) =
      [3, 2, 1, 0] := by
  norm_num [superposition_base, EI, total_lateral_load, self_weight_load, loads,
    BeamSection.moment_of_inertia, BeamSection.area, cantilever_y0, apply_point_loads,
    solve_segmented, segment_full, segment_rows, seg_loop, segment_boundaries,
    sorted_set, resolved_loads, resolve_position, direction_sign_downward,
    direction_sign_upward, jump_at, tol, odeint, flow,
    List.insertionSort, List.orderedInsert, List.dedup, List.filter, List.filterMap, abs_lt]

/-- Shear sequence of the paired problem's final integration, for an
arbitrary shooting slope: the sample at `x = 2` reads `2` instead of `1`,
because the second segment restarts at grid point `2` with the state taken
from grid point `1` (the integration from `1` to `2` across the boundary
`3/2` is skipped), even though the pair's net shear jump is zero. -/
theorem superposition_pair_V (s : ℚ) :
    (solve_segmented (EI superposition_pair) (total_lateral_load superposition_pair)
        superposition_pair.length (loads superposition_pair)
        (cantilever_y0 superposition_pair [0, 1, 2, 3] s) [0, 1, 2, 3]).map (·.V) =
      [3, 2, 2, 1] := by
  norm_num [superposition_pair, superposition_base, EI, total_lateral_load, self_weight_load,
    loads, BeamSection.moment_of_inertia, BeamSection.area, cantilever_y0, apply_point_loads,
    solve_segmented, segment_full, segment_rows, seg_loop, segment_boundaries,
    sorted_set, resolved_loads, resolve_position, direction_sign_downward,
    direction_sign_upward, jump_at, tol, odeint, flow,
    List.insertionSort, List.orderedInsert, List.dedup, List.filter, List.filterMap, abs_lt]

/-- **C6 (the code evaluated at the failing input).** On the sample grid
`[0, 1, 2, 3]` (= `linspace(0, 3, 4)`), the cantilever solve of the base
problem and of the base problem with the cancelling load pair at `3/2`
return different shear sequences for every possible outcome of the
shooting search (`rf1`, `rf1'` range over all root-finding oracles, and
the shear component of the output does not depend on the slope they
return): the pair *does* change the output, violating the superposition
property the specification requires. -/
theorem C6_superposition_violated (rf1 rf1' : (ℚ → ℚ) → ℚ) :
    linspace superposition_base.length 4 = [0, 1, 2, 3] ∧
    (solve_cantilever rf1 superposition_base [0, 1, 2, 3]).V = [3, 2, 1, 0] ∧
    (solve_cantilever rf1' superposition_pair [0, 1, 2, 3]).V = [3, 2, 2, 1] ∧
    ([3, 2, 1, 0] : List ℚ) ≠ [3, 2, 2, 1] := by
  refine ⟨?_, ?_, ?_, by norm_num⟩
  · norm_num [superposition_base, linspace, List.range_succ]
  · simp only [solve_cantilever, package]
    exact superposition_base_V _
  · simp only [solve_cantilever, package]
    exact superposition_pair_V _

/-- `total_lateral_load` reads nothing from the point-load fields. -/
theorem total_lateral_load_congr (p1 p2 : BeamColumnProblem)
    (hs : p1.sect = p2.sect) (hm : p1.material = p2.material)
    (hq : p1.lateral_load = p2.lateral_load) (ho : p1.orientation = p2.orientation)
    (hw : p1.include_self_weight = p2.include_self_weight) (hg : p1.g = p2.g) :
    total_lateral_load p1 = total_lateral_load p2 := by
  unfold total_lateral_load self_weight_load
  rw [hs, hm, hq, ho, hw, hg]

/-- **C10.** Two problems that differ only in their point-load list and
legacy point-load field produce identical solver output under the
simply_supported and fixed_fixed end conditions: those two solvers build
`V(0) = q_total·L` themselves and integrate with plain `odeint`, never
reading the point loads. -/
theorem C10_point_loads_ignored (rf1 : (ℚ → ℚ) → ℚ) (rf2 : (ℚ × ℚ → ℚ × ℚ) → ℚ × ℚ)
    (n : ℕ) (p1 p2 : BeamColumnProblem)
    (hL : p1.length = p2.length) (hs : p1.sect = p2.sect) (hm : p1.material = p2.material)
    (ha : p1.axial_load = p2.axial_load) (hq : p1.lateral_load = p2.lateral_load)
    (ho : p1.orientation = p2.orientation)
    (hw : p1.include_self_weight = p2.include_self_weight) (hg : p1.g = p2.g)
    (he : p1.end_condition = p2.end_condition)
    (hcase : p1.end_condition = "simply_supported" ∨ p1.end_condition = "fixed_fixed") :
    solve rf1 rf2 p1 n = solve rf1 rf2 p2 n ∧
    (∀ slope, (simply_supported_y0 p1 slope).V = total_lateral_load p1 * p1.length) ∧
    (∀ params, (fixed_fixed_y0 p1 params).V = total_lateral_load p1 * p1.length) := by
  have hEI : EI p1 = EI p2 := by
    unfold EI
    rw [hs, hm]
  have hq2 : total_lateral_load p1 = total_lateral_load p2 :=
    total_lateral_load_congr p1 p2 hs hm hq ho hw hg
  refine ⟨?_, fun slope => rfl, fun params => rfl⟩
  rcases hcase with hc | hc
  · have hc2 : p2.end_condition = "simply_supported" := he.symm.trans hc
    unfold solve
    rw [hc, hc2]
    simp only [String.reduceEq, reduceIte]
    unfold solve_simply_supported simply_supported_residual simply_supported_y0
    rw [hEI, hq2, hL]
  · have hc2 : p2.end_condition = "fixed_fixed" := he.symm.trans hc
    unfold solve
    rw [hc, hc2]
    simp only [String.reduceEq, reduceIte]
    unfold solve_fixed_fixed fixed_fixed_residuals fixed_fixed_y0
    rw [hEI, hq2, hL]

/-- Witness for C10: a simply-supported problem with a legacy load of 7 and
a point load of 9 at midspan solves identically to the same problem with
no point loads at all. -/
theorem C10_point_loads_ignored_witness :
    solve (fun _ => 0) (fun _ => (0, 0))
      { length := 2, sect := { width := 1, height := 1 },
        material := { E := 12, density := 0 }, axial_load := 1, lateral_load := 5,
        point_load := 7, point_loads := some [{ magnitude := 9, position := 1 }],
        end_condition := "simply_supported" } 4 =
    solve (fun _ => 0) (fun _ => (0, 0))
      { length := 2, sect := { width := 1, height := 1 },
        material := { E := 12, density := 0 }, axial_load := 1, lateral_load := 5,
        point_load := 0, point_loads := some [],
        end_condition := "simply_supported" } 4 :=
  (C10_point_loads_ignored (fun _ => 0) (fun _ => (0, 0)) 4 _ _ rfl rfl rfl rfl rfl rfl rfl
    rfl rfl (Or.inl rfl)).1

/-- Witness for C9 at a concrete section and moment list. -/
theorem C9_stresses_witness :
    (calculate_stresses
      { length := 2, sect := { width := 1, height := 1 },
        material := { E := 4, density := 1 }, axial_load := 6, lateral_load := 0,
        point_loads := some [] } [0, 1] [-2, 3]).1 =
      [|(-2 : ℚ)| * ((1 : ℚ) / 2) / ((1 : ℚ) * 1 ^ 3 / 12),
       |(3 : ℚ)| * ((1 : ℚ) / 2) / ((1 : ℚ) * 1 ^ 3 / 12)] :=
  ((C9_stresses _ [0, 1] [-2, 3] [] [] (by norm_num) (by norm_num)).1).trans rfl

end BeamColumn
